import Mathlib

/-!
# Verification of `StripeElementDirective` (wizdm, `element.directive.ts`)

Shallow embedding of the lifecycle controller of
`src/stripe/src/lib/elements/element.directive.ts`.

The source builds an RxJS pipeline at construction time:

  element$ = init$.pipe( take(1), switchMap( options =>
               elements.create(elementType, options).pipe( tap( elm => {
                 this._instance && this._instance.destroy();
                 elm.on('ready', ...); elm.on('focus', ...); elm.on('blur', ...);
                 elm.mount(ref.nativeElement);
                 return this._instance = elm; }))), shareReplay(1) );
  this.sub = this.element$.subscribe();

and forwards `focus`/`blur`/`clear`/`destroy` through

  forward(fn) { if(this.instance) return fn(this.instance);
                this.element$.pipe(take(1)).subscribe( i => fn(i) ); }

We model the directive instance as an explicit state machine.  The RxJS
combinators are rendered by their single-threaded semantics:

* `init$` + `take(1)`  : a boolean `initDone`; the first `init$.next`
  (and only the first) reaches `switchMap`, which invokes the container
  capability `elements.create(type, options)` — recorded as an
  `Effect.create options` in the effect log and as `pendingCreate`.
* the asynchronous resolution of `elements.create` is an external event
  `Event.resolve elm`; when it fires (only meaningful while a creation is
  pending) the `tap` body runs: destroy a previous instance if any, hook
  the `ready`/`focus`/`blur` handlers, mount the element, store
  `_instance`; then `shareReplay(1)` caches the element and delivers it
  to every pending `take(1)` subscriber created by `forward`, each of
  which runs its action once and unsubscribes.
* `shareReplay(1)` is used with its default configuration (no reference
  counting), so unsubscribing `this.sub` does not cancel the source
  chain: a pending creation still resolves afterwards.

Widget callbacks (`ready`, `focus`, `blur` events and — wired in concrete
subclasses — the `change` event writing `_value`) are modelled as events
that only have an effect once an instance exists, since the handlers are
attached to the created element.

All externally observable interactions (calls to `create`, `mount`,
forwarded element calls, `sub.unsubscribe()`) are recorded in order in an
effect log, so ordering claims ("after mount") are claims about the log.
-/

namespace StripeDirective

/-- Element options (`StripeElementOptions`) identified by an opaque id. -/
abbrev Opts := Nat

/-- A created `StripeElement` instance, identified by an opaque id. -/
abbrev Elm := Nat

/-- A `StripeError`, identified by an opaque id. -/
structure StripeError where
  code : Nat
deriving DecidableEq

/-- The `StripeElementChangeEvent` snapshot `{empty, complete, error}`. -/
structure ChangeEvent where
  empty : Bool
  complete : Bool
  error : Option StripeError
deriving DecidableEq

/-- A call forwarded to the StripeElement instance through `forward`. -/
inductive ElmCall
  | focus
  | blur
  | clear
  | destroy
deriving DecidableEq

/-- Externally observable effects of the directive, in order of occurrence. -/
inductive Effect
  | create (opts : Opts)            -- `elements.create(elementType, options)`
  | mount (elm : Elm)               -- `elm.mount(ref.nativeElement)`
  | call (c : ElmCall) (elm : Elm)  -- a call forwarded to the instance
  | unsub                           -- `this.sub.unsubscribe()`
deriving DecidableEq

/-- The state of one `StripeElementDirective` instance. -/
structure DirectiveState where
  /-- `take(1)` on `init$` has consumed its (single) value. -/
  initDone : Bool
  /-- `elements.create` has been invoked with these options and its
      observable is live (awaiting / past resolution). -/
  pendingCreate : Option Opts
  /-- the `shareReplay(1)` buffer of `element$`. -/
  cached : Option Elm
  /-- pending `element$.pipe(take(1)).subscribe(fn)` subscriptions created
      by `forward` before resolution, in subscription order. -/
  queuedForwards : List ElmCall
  /-- `this.sub` has not been unsubscribed. -/
  subAlive : Bool
  /-- `this._instance`. -/
  inst : Option Elm
  /-- `this._value`. -/
  value : Option ChangeEvent
  /-- `this._ready`. -/
  ready : Bool
  /-- `this._focused`. -/
  focused : Bool
  /-- ordered log of observable effects. -/
  log : List Effect
deriving DecidableEq

/-- State right after a successful construction: pipeline built, `this.sub`
subscribed, nothing created yet. -/
def initState : DirectiveState :=
  { initDone := false
    pendingCreate := none
    cached := none
    queuedForwards := []
    subAlive := true
    inst := none
    value := none
    ready := false
    focused := false
    log := [] }

/-- The construction-time container check:

    if(!elements) { throw new Error(`You're attempting to use a Stripe
      Element out of a proper StripeElements container. ...`); }

The container collaborator is only tested for presence, so it is modelled
as `Option Unit`.  On success the constructor builds `element$` and eagerly
subscribes (`this.sub`), yielding `initState`. -/
def containerErrMsg : String :=
  "Attempting to use a Stripe Element out of a proper StripeElements container. Make sure to wrap all the controls within a wm-stripe-elements directive."

/-- The constructor: the container check followed by pipeline setup. -/
def construct (elements : Option Unit) : Except String DirectiveState :=
  match elements with
  | none => .error containerErrMsg
  | some _ => .ok initState

/-- `forward(fn)`: short-circuit on the current instance if any; otherwise
subscribe `element$.pipe(take(1))`, which replays the `shareReplay(1)`
buffer immediately when present, and queues otherwise. -/
def fwd (s : DirectiveState) (c : ElmCall) : DirectiveState :=
  match s.inst with
  | some e => { s with log := s.log ++ [.call c e] }
  | none =>
    match s.cached with
    | some e => { s with log := s.log ++ [.call c e] }
    | none => { s with queuedForwards := s.queuedForwards ++ [c] }

/-- `this._instance && this._instance.destroy()` in the `tap` body: the
effects of the defensive destroy of a previous instance, if any. -/
def destroyPrev (o : Option Elm) : List Effect :=
  match o with
  | some old => [.call .destroy old]
  | none => []

/-- Resolution of the `elements.create` observable with a new element `e`:
the `tap` body runs (destroy previous instance if any, hook events, mount,
store the instance), then `shareReplay(1)` caches `e` and delivers it to
every queued `take(1)` subscriber, which runs its forwarded action once and
is discarded.  Only meaningful while a creation is in flight. -/
def resolveStep (s : DirectiveState) (e : Elm) : DirectiveState :=
  match s.pendingCreate with
  | none => s
  | some _ =>
    { s with
      inst := some e
      cached := some e
      queuedForwards := []
      log := s.log
        ++ destroyPrev s.inst
        ++ [.mount e]
        ++ s.queuedForwards.map (fun c => .call c e) }

/-- Events driving one directive instance: its protected/public methods,
the asynchronous resolution of the container capability, and the widget
callbacks hooked in the `tap` (plus the `change` callback, which concrete
subclasses wire to write `_value`). -/
inductive Event
  | init (opts : Opts)        -- `init(options)`, i.e. `init$.next(options)`
  | focus                     -- public `focus()`
  | blur                      -- public `blur()`
  | clear                     -- public `clear()`
  | disable (b : Bool)        -- public `disable(flag)` (base class no-op)
  | ngOnDestroy               -- `ngOnDestroy()`
  | resolve (elm : Elm)       -- `elements.create(...)` observable emits
  | readyEvt                  -- the element fires 'ready'
  | focusEvt                  -- the element fires 'focus'
  | blurEvt                   -- the element fires 'blur'
  | changeEvt (ev : ChangeEvent) -- the element fires 'change' (subclass-wired)
deriving DecidableEq

/-- One step of the directive state machine. -/
def step (s : DirectiveState) : Event → DirectiveState
  | .init opts =>
    -- `init$.next(opts)`: `take(1)` lets only the first value through to
    -- `switchMap`, which calls `elements.create(elementType, opts)`.
    if s.initDone then s
    else { s with
            initDone := true
            pendingCreate := some opts
            log := s.log ++ [.create opts] }
  | .focus => fwd s .focus
  | .blur => fwd s .blur
  | .clear => fwd s .clear
  | .disable _ => s          -- `public disable(_: boolean) {}`
  | .ngOnDestroy =>
    -- `this.forward(instance => instance.destroy()); this.sub.unsubscribe();`
    let s' := fwd s .destroy
    { s' with subAlive := false, log := s'.log ++ [.unsub] }
  | .resolve e => resolveStep s e
  | .readyEvt =>
    -- `elm.on('ready', () => { this.readyChange.emit(this._ready = true); })`
    if s.inst.isSome then { s with ready := true } else s
  | .focusEvt =>
    -- `elm.on('focus', () => { this._focused = true; this.focusChange.emit(); })`
    if s.inst.isSome then { s with focused := true } else s
  | .blurEvt =>
    -- `elm.on('blur', () => { this._focused = false; this.blurChange.emit(); })`
    if s.inst.isSome then { s with focused := false } else s
  | .changeEvt ev =>
    -- Modelled from the spec: the 'change' wiring lives in the concrete
    -- subclasses (not in src/); each change notification overwrites the
    -- stored `_value` snapshot with the latest `ChangeEvent`.
    if s.inst.isSome then { s with value := some ev } else s

/-- Run a sequence of events from a state. -/
def run (s : DirectiveState) (es : List Event) : DirectiveState :=
  es.foldl step s

/-- Getter `empty`: `return !this._value || this._value.empty`. -/
def emptyGet (s : DirectiveState) : Bool :=
  match s.value with
  | none => true
  | some v => v.empty

/-- Getter `complete`: `return !!this._value && this._value.complete`. -/
def completeGet (s : DirectiveState) : Bool :=
  match s.value with
  | none => false
  | some v => v.complete

/-- Getter `error`: `return !!this._value && this._value.error || null`. -/
def errorGet (s : DirectiveState) : Option StripeError :=
  match s.value with
  | none => none
  | some v => v.error

/-- Getter `disabled`: `return false`. -/
def disabledGet (_ : DirectiveState) : Bool := false

/-! ## Observation helpers over the effect log and event traces -/

/-- Number of `elements.create` invocations recorded. -/
def createCount (l : List Effect) : Nat :=
  l.countP (fun x => match x with | .create _ => true | _ => false)

/-- The options of the recorded `elements.create` invocations, in order. -/
def createsOf (l : List Effect) : List Opts :=
  l.filterMap (fun x => match x with | .create o => some o | _ => none)

/-- Number of `mount` invocations recorded. -/
def mountCount (l : List Effect) : Nat :=
  l.countP (fun x => match x with | .mount _ => true | _ => false)

/-- Number of forwarded calls of kind `c` recorded. -/
def callCount (c : ElmCall) (l : List Effect) : Nat :=
  l.countP (fun x => match x with | .call c2 _ => c2 = c | _ => false)

/-- Number of forwarded calls of any kind recorded. -/
def callTotal (l : List Effect) : Nat :=
  l.countP (fun x => match x with | .call _ _ => true | _ => false)

/-- Number of `sub.unsubscribe()` invocations recorded. -/
def unsubCount (l : List Effect) : Nat :=
  l.countP (fun x => match x with | .unsub => true | _ => false)

/-- Whether an event is a `resolve`. -/
def isResolve (e : Event) : Bool :=
  match e with | .resolve _ => true | _ => false

/-- Whether an event is a `changeEvt`. -/
def isChange (e : Event) : Bool :=
  match e with | .changeEvt _ => true | _ => false

/-- Number of `resolve` events in a trace. -/
def resolveCount (es : List Event) : Nat :=
  es.countP isResolve

/-- The options carried by the first `init` event of a trace, if any. -/
def firstInit : List Event → Option Opts
  | [] => none
  | .init o :: _ => some o
  | _ :: es => firstInit es

/-- Update of "the most recent focus/blur notification so far" by one event. -/
def lastNotifAux (acc : Option Bool) (e : Event) : Option Bool :=
  match e with
  | .focusEvt => some true
  | .blurEvt => some false
  | _ => acc

/-- The boolean value of the most recent focus/blur widget notification in
a trace (`true` for 'focus', `false` for 'blur'), if any occurred. -/
def lastNotif (es : List Event) : Option Bool :=
  es.foldl lastNotifAux none

/-- Number of `ngOnDestroy` events in a trace. -/
def ngCount (es : List Event) : Nat :=
  es.countP (fun x => match x with | .ngOnDestroy => true | _ => false)

/-- The focus flag after one event, as the spec describes it: a focus
notification sets it, a blur notification clears it, anything else leaves
it alone. -/
def fbUpd (b : Bool) (e : Event) : Bool :=
  match e with
  | .focusEvt => true
  | .blurEvt => false
  | _ => b

/-- Whether a trace contains a `resolve` event. -/
def hasResolve (es : List Event) : Bool :=
  es.any isResolve

/-- Whether a trace contains a `changeEvt` event. -/
def hasChange (es : List Event) : Bool :=
  es.any isChange

/-! ## Basic preservation lemmas -/

theorem fwd_inst (s : DirectiveState) (c : ElmCall) : (fwd s c).inst = s.inst := by
  unfold fwd
  split
  · rfl
  · split <;> rfl

theorem fwd_cached (s : DirectiveState) (c : ElmCall) : (fwd s c).cached = s.cached := by
  unfold fwd
  split
  · rfl
  · split <;> rfl

theorem fwd_initDone (s : DirectiveState) (c : ElmCall) : (fwd s c).initDone = s.initDone := by
  unfold fwd
  split
  · rfl
  · split <;> rfl

theorem fwd_pendingCreate (s : DirectiveState) (c : ElmCall) :
    (fwd s c).pendingCreate = s.pendingCreate := by
  unfold fwd
  split
  · rfl
  · split <;> rfl

theorem fwd_value (s : DirectiveState) (c : ElmCall) : (fwd s c).value = s.value := by
  unfold fwd
  split
  · rfl
  · split <;> rfl

theorem fwd_ready (s : DirectiveState) (c : ElmCall) : (fwd s c).ready = s.ready := by
  unfold fwd
  split
  · rfl
  · split <;> rfl

theorem fwd_focused (s : DirectiveState) (c : ElmCall) : (fwd s c).focused = s.focused := by
  unfold fwd
  split
  · rfl
  · split <;> rfl

theorem fwd_subAlive (s : DirectiveState) (c : ElmCall) : (fwd s c).subAlive = s.subAlive := by
  unfold fwd
  split
  · rfl
  · split <;> rfl

/-- `forward` either logs one forwarded call (to the instance or to the
`shareReplay` buffer) or queues the action; it never records any other
kind of effect. -/
theorem fwd_log (s : DirectiveState) (c : ElmCall) :
    (∃ e, (fwd s c).log = s.log ++ [.call c e]) ∨ (fwd s c).log = s.log := by
  unfold fwd
  split
  · exact Or.inl ⟨_, rfl⟩
  · split
    · exact Or.inl ⟨_, rfl⟩
    · exact Or.inr rfl

theorem resolveStep_initDone (s : DirectiveState) (e : Elm) :
    (resolveStep s e).initDone = s.initDone := by
  unfold resolveStep
  split <;> rfl

theorem resolveStep_pendingCreate (s : DirectiveState) (e : Elm) :
    (resolveStep s e).pendingCreate = s.pendingCreate := by
  unfold resolveStep
  split <;> rfl

theorem resolveStep_value (s : DirectiveState) (e : Elm) :
    (resolveStep s e).value = s.value := by
  unfold resolveStep
  split <;> rfl

theorem resolveStep_ready (s : DirectiveState) (e : Elm) :
    (resolveStep s e).ready = s.ready := by
  unfold resolveStep
  split <;> rfl

theorem resolveStep_focused (s : DirectiveState) (e : Elm) :
    (resolveStep s e).focused = s.focused := by
  unfold resolveStep
  split <;> rfl

theorem resolveStep_subAlive (s : DirectiveState) (e : Elm) :
    (resolveStep s e).subAlive = s.subAlive := by
  unfold resolveStep
  split <;> rfl

/-- Unfolding `run` on a cons. -/
theorem run_cons (s : DirectiveState) (e : Event) (es : List Event) :
    run s (e :: es) = run (step s e) es := rfl

/-- Unfolding `run` on an appended singleton. -/
theorem run_concat (s : DirectiveState) (es : List Event) (e : Event) :
    run s (es ++ [e]) = step (run s es) e := by
  simp [run, List.foldl_append]

/-! ## Effect-count lemmas -/

theorem createsOf_append (l1 l2 : List Effect) :
    createsOf (l1 ++ l2) = createsOf l1 ++ createsOf l2 := by
  simp [createsOf]

theorem mountCount_append (l1 l2 : List Effect) :
    mountCount (l1 ++ l2) = mountCount l1 + mountCount l2 := by
  simp [mountCount, List.countP_append]

theorem unsubCount_append (l1 l2 : List Effect) :
    unsubCount (l1 ++ l2) = unsubCount l1 + unsubCount l2 := by
  simp [unsubCount, List.countP_append]

theorem callTotal_append (l1 l2 : List Effect) :
    callTotal (l1 ++ l2) = callTotal l1 + callTotal l2 := by
  simp [callTotal, List.countP_append]

theorem callCount_append (c : ElmCall) (l1 l2 : List Effect) :
    callCount c (l1 ++ l2) = callCount c l1 + callCount c l2 := by
  simp [callCount, List.countP_append]

theorem createCount_eq_length (l : List Effect) :
    createCount l = (createsOf l).length := by
  induction l with
  | nil => rfl
  | cons x xs ih =>
    cases x <;> simp [createCount, createsOf, List.countP_cons] at ih ⊢ <;>
      simp [ih]

theorem mountCount_map_call (q : List ElmCall) (e : Elm) :
    mountCount (q.map (fun c => .call c e)) = 0 := by
  simp [mountCount, List.countP_map]

theorem createsOf_map_call (q : List ElmCall) (e : Elm) :
    createsOf (q.map (fun c => .call c e)) = [] := by
  simp [createsOf, List.filterMap_map]

theorem unsubCount_map_call (q : List ElmCall) (e : Elm) :
    unsubCount (q.map (fun c => .call c e)) = 0 := by
  simp [unsubCount, List.countP_map]

theorem createsOf_destroyPrev (o : Option Elm) : createsOf (destroyPrev o) = [] := by
  cases o <;> rfl

theorem mountCount_destroyPrev (o : Option Elm) : mountCount (destroyPrev o) = 0 := by
  cases o <;> rfl

theorem unsubCount_destroyPrev (o : Option Elm) : unsubCount (destroyPrev o) = 0 := by
  cases o <;> rfl

theorem createsOf_fwd (s : DirectiveState) (c : ElmCall) :
    createsOf (fwd s c).log = createsOf s.log := by
  rcases fwd_log s c with ⟨e, h⟩ | h <;> simp [h, createsOf_append, createsOf]

theorem mountCount_fwd (s : DirectiveState) (c : ElmCall) :
    mountCount (fwd s c).log = mountCount s.log := by
  rcases fwd_log s c with ⟨e, h⟩ | h <;> simp [h, mountCount_append, mountCount]

theorem unsubCount_fwd (s : DirectiveState) (c : ElmCall) :
    unsubCount (fwd s c).log = unsubCount s.log := by
  rcases fwd_log s c with ⟨e, h⟩ | h <;> simp [h, unsubCount_append, unsubCount]

theorem createsOf_resolveStep (s : DirectiveState) (e : Elm) :
    createsOf (resolveStep s e).log = createsOf s.log := by
  unfold resolveStep
  split
  · rfl
  · simp only [createsOf_append, createsOf_destroyPrev, createsOf_map_call]
    simp [createsOf]

theorem mountCount_resolveStep_le (s : DirectiveState) (e : Elm) :
    mountCount (resolveStep s e).log ≤ mountCount s.log + 1 := by
  unfold resolveStep
  split
  · omega
  · simp only [mountCount_append, mountCount_destroyPrev, mountCount_map_call]
    simp [mountCount]

theorem unsubCount_resolveStep (s : DirectiveState) (e : Elm) :
    unsubCount (resolveStep s e).log = unsubCount s.log := by
  unfold resolveStep
  split
  · rfl
  · simp only [unsubCount_append, unsubCount_destroyPrev, unsubCount_map_call]
    simp [unsubCount]

theorem createsOf_nil : createsOf [] = [] := rfl

theorem createsOf_unsub : createsOf [Effect.unsub] = [] := rfl

theorem createsOf_create (o : Opts) : createsOf [Effect.create o] = [o] := rfl

/-! ## Step-level field lemmas -/

theorem step_initDone_of_initDone (s : DirectiveState) (e : Event) (h : s.initDone = true) :
    (step s e).initDone = true := by
  cases e <;> simp [step, fwd_initDone, resolveStep_initDone, h, apply_ite]

theorem step_initDone_ne_init (s : DirectiveState) (e : Event) (h : ∀ o, e ≠ .init o) :
    (step s e).initDone = s.initDone := by
  cases e <;> simp [step, fwd_initDone, resolveStep_initDone, apply_ite]
  exact absurd rfl (h _)

theorem step_inst_of_not_resolve (s : DirectiveState) (e : Event)
    (h : ∀ r, e ≠ .resolve r) : (step s e).inst = s.inst := by
  cases e <;> simp [step, fwd_inst, apply_ite]
  exact absurd rfl (h _)

theorem step_inst_isSome (s : DirectiveState) (e : Event) (h : s.inst.isSome = true) :
    (step s e).inst.isSome = true := by
  cases e <;> simp [step, fwd_inst, h, apply_ite]
  case resolve r =>
    unfold resolveStep
    split <;> simp [h]

theorem step_cached_eq_inst (s : DirectiveState) (e : Event) (h : s.cached = s.inst) :
    (step s e).cached = (step s e).inst := by
  cases e <;> simp [step, fwd_inst, fwd_cached, h, apply_ite]
  case resolve r =>
    unfold resolveStep
    split <;> simp [h]

theorem createsOf_step_of_initDone (s : DirectiveState) (e : Event) (h : s.initDone = true) :
    createsOf (step s e).log = createsOf s.log := by
  cases e <;>
    simp [step, createsOf_fwd, createsOf_resolveStep, createsOf_append, createsOf_unsub,
      h, apply_ite]

theorem createsOf_step_ne_init (s : DirectiveState) (e : Event) (h : ∀ o, e ≠ .init o) :
    createsOf (step s e).log = createsOf s.log := by
  cases e <;>
    simp [step, createsOf_fwd, createsOf_resolveStep, createsOf_append, createsOf_unsub,
      apply_ite]
  exact absurd rfl (h _)

/-! ## Run-level lemmas: the creation pipeline -/

/-- Once `take(1)` has consumed its value, no event can trigger another
`elements.create` call. -/
theorem run_createsOf_of_initDone (es : List Event) :
    ∀ s : DirectiveState, s.initDone = true →
      createsOf (run s es).log = createsOf s.log := by
  induction es with
  | nil => intro s _; rfl
  | cons e es ih =>
    intro s h
    rw [run_cons, ih _ (step_initDone_of_initDone s e h)]
    exact createsOf_step_of_initDone s e h

/-- From a state where `take(1)` has not fired yet, the `elements.create`
calls recorded by a trace are exactly the options of the trace's first
`init`, if any. -/
theorem run_createsOf (es : List Event) :
    ∀ s : DirectiveState, s.initDone = false →
      createsOf (run s es).log
        = createsOf s.log ++ (firstInit es).elim [] (fun o => [o]) := by
  induction es with
  | nil => intro s _; simp [run, firstInit]
  | cons e es ih =>
    intro s h
    rw [run_cons]
    cases e
    case init o =>
      have hstep : step s (.init o)
          = { s with initDone := true, pendingCreate := some o,
                     log := s.log ++ [.create o] } := by
        simp [step, h]
      rw [hstep, run_createsOf_of_initDone es _ rfl]
      simp [createsOf_append, createsOf_create, firstInit]
    all_goals
      rw [ih _ ((step_initDone_ne_init s _ (by simp)).trans h),
        createsOf_step_ne_init s _ (by simp)]
      rfl

/-! ## Run-level lemmas: mounts and unsubscriptions -/

theorem mountCount_create (o : Opts) : mountCount [Effect.create o] = 0 := rfl

theorem mountCount_unsub : mountCount [Effect.unsub] = 0 := rfl

theorem unsubCount_create (o : Opts) : unsubCount [Effect.create o] = 0 := rfl

theorem unsubCount_unsub : unsubCount [Effect.unsub] = 1 := rfl

theorem mountCount_step_le (s : DirectiveState) (e : Event) :
    mountCount (step s e).log ≤ mountCount s.log + resolveCount [e] := by
  cases e <;>
    simp [step, mountCount_fwd, mountCount_append, mountCount_create, mountCount_unsub,
      resolveCount, List.countP_cons, apply_ite]
  exact mountCount_resolveStep_le _ _

/-- At most one mount per resolution of the creation pipeline. -/
theorem run_mountCount_le (es : List Event) :
    ∀ s : DirectiveState,
      mountCount (run s es).log ≤ mountCount s.log + resolveCount es := by
  induction es with
  | nil => intro s; simp [run, resolveCount]
  | cons e es ih =>
    intro s
    rw [run_cons]
    have h1 := ih (step s e)
    have h2 := mountCount_step_le s e
    have h3 : resolveCount (e :: es) = resolveCount es + resolveCount [e] := by
      simp [resolveCount, List.countP_cons]
    omega

theorem unsubCount_step (s : DirectiveState) (e : Event) :
    unsubCount (step s e).log = unsubCount s.log + ngCount [e] := by
  cases e <;>
    simp [step, unsubCount_fwd, unsubCount_append, unsubCount_create, unsubCount_unsub,
      unsubCount_resolveStep, ngCount, List.countP_cons, apply_ite]

/-- `sub.unsubscribe()` is executed exactly once per `ngOnDestroy` call. -/
theorem run_unsubCount (es : List Event) :
    ∀ s : DirectiveState,
      unsubCount (run s es).log = unsubCount s.log + ngCount es := by
  induction es with
  | nil => intro s; simp [run, ngCount]
  | cons e es ih =>
    intro s
    rw [run_cons]
    have h1 := ih (step s e)
    have h2 := unsubCount_step s e
    have h3 : ngCount (e :: es) = ngCount es + ngCount [e] := by
      simp [ngCount, List.countP_cons]
    omega

/-! ## Run-level lemmas: the stored value, the focus flag, the ready flag -/

theorem value_step_ne_change (s : DirectiveState) (e : Event)
    (h : ∀ ev, e ≠ .changeEvt ev) : (step s e).value = s.value := by
  cases e <;> simp [step, fwd_value, resolveStep_value, apply_ite]
  exact absurd rfl (h _)

/-- Until a change notification arrives, `_value` keeps its old content. -/
theorem run_value_of_no_change (es : List Event) :
    ∀ s : DirectiveState, hasChange es = false → (run s es).value = s.value := by
  induction es with
  | nil => intro s _; rfl
  | cons e es ih =>
    intro s h
    have h0 : (isChange e || hasChange es) = false := h
    have h' := Bool.or_eq_false_iff.mp h0
    rw [run_cons, ih _ h'.2, value_step_ne_change s e ?_]
    intro ev hev
    subst hev
    have h1 := h'.1
    simp [isChange] at h1

theorem focused_step (s : DirectiveState) (e : Event) (h : s.inst.isSome = true) :
    (step s e).focused = fbUpd s.focused e := by
  cases e <;> simp [step, fwd_focused, resolveStep_focused, fbUpd, h, apply_ite]

/-- With an instance present, the focus flag is the fold of the
notifications over the trace: the most recent focus/blur wins. -/
theorem run_focused (es : List Event) :
    ∀ s : DirectiveState, s.inst.isSome = true →
      (run s es).focused = es.foldl fbUpd s.focused := by
  induction es with
  | nil => intro s _; rfl
  | cons e es ih =>
    intro s h
    rw [run_cons, ih _ (step_inst_isSome s e h), focused_step s e h, List.foldl_cons]

theorem foldl_fbUpd (es : List Event) :
    ∀ (o : Option Bool) (b : Bool),
      es.foldl fbUpd (o.getD b) = (es.foldl lastNotifAux o).getD b := by
  induction es with
  | nil => intro o b; rfl
  | cons e es ih =>
    intro o b
    have h : fbUpd (o.getD b) e = (lastNotifAux o e).getD b := by
      cases e <;> rfl
    simp only [List.foldl_cons]
    rw [h]
    exact ih _ b

theorem ready_step_of_ready (s : DirectiveState) (e : Event) (h : s.ready = true) :
    (step s e).ready = true := by
  cases e <;> simp [step, fwd_ready, resolveStep_ready, h, apply_ite]

theorem ready_step_ne (s : DirectiveState) (e : Event) (h : e ≠ .readyEvt) :
    (step s e).ready = s.ready := by
  cases e <;> simp [step, fwd_ready, resolveStep_ready, apply_ite]
  exact absurd rfl h

/-! ## Run-level lemmas: single cached instance -/

/-- `forward` never records a call that does not go to the current
instance, given that this was true so far and the `shareReplay` buffer
agrees with the instance. -/
theorem calls_fwd (s : DirectiveState) (c0 : ElmCall)
    (hc : s.cached = s.inst)
    (hinv : ∀ c x, Effect.call c x ∈ s.log → s.inst = some x) :
    ∀ c x, Effect.call c x ∈ (fwd s c0).log → s.inst = some x := by
  intro c x hx
  unfold fwd at hx
  rw [hc] at hx
  rcases hi : s.inst with _ | i
  · rw [hi] at hx
    replace hx : Effect.call c x ∈ s.log := hx
    rw [← hi]
    exact hinv c x hx
  · rw [hi] at hx
    replace hx : Effect.call c x ∈ s.log ++ [Effect.call c0 i] := hx
    simp only [List.mem_append, List.mem_singleton] at hx
    rcases hx with hx | hx
    · rw [← hi]
      exact hinv c x hx
    · injection hx with h1 h2
      rw [h2]

/-- One step preserves the invariant "every forwarded call in the log went
to the current instance", provided a resolve can only happen while no
instance exists yet (i.e. on the pipeline first resolution). -/
theorem calls_step (s : DirectiveState) (e : Event)
    (hc : s.cached = s.inst)
    (hinv : ∀ c x, Effect.call c x ∈ s.log → s.inst = some x)
    (hres : ∀ r, e = .resolve r → s.inst = none) :
    ∀ c x, Effect.call c x ∈ (step s e).log → (step s e).inst = some x := by
  cases e with
  | init o =>
    intro c x hx
    rw [step_inst_of_not_resolve s _ (by simp)]
    by_cases hd : s.initDone = true
    · replace hx : Effect.call c x ∈ s.log := by
        simpa [step, hd] using hx
      exact hinv c x hx
    · replace hx : Effect.call c x ∈ s.log ++ [Effect.create o] := by
        simpa [step, hd] using hx
      simp only [List.mem_append, List.mem_singleton] at hx
      rcases hx with hx | hx
      · exact hinv c x hx
      · exact absurd hx (by simp)
  | focus =>
    intro c x hx
    show (fwd s ElmCall.focus).inst = some x
    rw [fwd_inst]
    exact calls_fwd s ElmCall.focus hc hinv c x hx
  | blur =>
    intro c x hx
    show (fwd s ElmCall.blur).inst = some x
    rw [fwd_inst]
    exact calls_fwd s ElmCall.blur hc hinv c x hx
  | clear =>
    intro c x hx
    show (fwd s ElmCall.clear).inst = some x
    rw [fwd_inst]
    exact calls_fwd s ElmCall.clear hc hinv c x hx
  | ngOnDestroy =>
    intro c x hx
    show (fwd s ElmCall.destroy).inst = some x
    rw [fwd_inst]
    replace hx : Effect.call c x ∈ (fwd s ElmCall.destroy).log ++ [Effect.unsub] := hx
    simp only [List.mem_append, List.mem_singleton] at hx
    rcases hx with hx | hx
    · exact calls_fwd s ElmCall.destroy hc hinv c x hx
    · exact absurd hx (by simp)
  | disable b => exact hinv
  | readyEvt =>
    intro c x hx
    have hl : (step s Event.readyEvt).log = s.log := by simp [step, apply_ite]
    rw [hl] at hx
    rw [step_inst_of_not_resolve s _ (by simp)]
    exact hinv c x hx
  | focusEvt =>
    intro c x hx
    have hl : (step s Event.focusEvt).log = s.log := by simp [step, apply_ite]
    rw [hl] at hx
    rw [step_inst_of_not_resolve s _ (by simp)]
    exact hinv c x hx
  | blurEvt =>
    intro c x hx
    have hl : (step s Event.blurEvt).log = s.log := by simp [step, apply_ite]
    rw [hl] at hx
    rw [step_inst_of_not_resolve s _ (by simp)]
    exact hinv c x hx
  | changeEvt ev =>
    intro c x hx
    have hl : (step s (Event.changeEvt ev)).log = s.log := by simp [step, apply_ite]
    rw [hl] at hx
    rw [step_inst_of_not_resolve s _ (by simp)]
    exact hinv c x hx
  | resolve r =>
    intro c x hx
    have hnone : s.inst = none := hres r rfl
    show (resolveStep s r).inst = some x
    replace hx : Effect.call c x ∈ (resolveStep s r).log := hx
    unfold resolveStep at hx ⊢
    rcases hp : s.pendingCreate with _ | o
    · rw [hp] at hx
      replace hx : Effect.call c x ∈ s.log := hx
      exact hinv c x hx
    · rw [hp] at hx
      replace hx : Effect.call c x ∈ s.log ++ destroyPrev s.inst ++ [Effect.mount r]
          ++ s.queuedForwards.map (fun c => Effect.call c r) := hx
      rw [hnone] at hx
      simp only [destroyPrev, List.append_nil, List.mem_append, List.mem_singleton,
        List.mem_map] at hx
      show some r = some x
      rcases hx with (hx | hx) | hx
      · have h2 := hinv c x hx
        rw [hnone] at h2
        exact Option.noConfusion h2
      · exact absurd hx (by simp)
      · obtain ⟨c2, hc2, hcall⟩ := hx
        injection hcall with h1 h2
        rw [h2]

theorem step_cached_of_not_resolve (s : DirectiveState) (e : Event)
    (h : ∀ r, e ≠ .resolve r) : (step s e).cached = s.cached := by
  cases e <;> simp [step, fwd_cached, apply_ite]
  exact absurd rfl (h _)

theorem callTotal_create (o : Opts) : callTotal [Effect.create o] = 0 := rfl

theorem callTotal_unsub : callTotal [Effect.unsub] = 0 := rfl

/-- Before any resolution, and with neither an instance nor a cached
element, a non-resolve step can only queue: it forwards no call. -/
theorem callTotal_step_of_none (s : DirectiveState) (e : Event)
    (h1 : s.inst = none) (h2 : s.cached = none) (hne : ∀ r, e ≠ .resolve r) :
    callTotal (step s e).log = callTotal s.log := by
  cases e <;>
    simp [step, fwd, h1, h2, callTotal_append, callTotal_create, callTotal_unsub,
      apply_ite]
  exact absurd rfl (hne _)

/-- On a trace with no resolution, no call is ever forwarded, and neither
an instance nor a cached element ever appears. -/
theorem run_no_resolve (es : List Event) :
    ∀ s : DirectiveState, hasResolve es = false → s.inst = none → s.cached = none →
      (run s es).inst = none ∧ (run s es).cached = none ∧
      callTotal (run s es).log = callTotal s.log := by
  induction es with
  | nil => intro s _ h1 h2; exact ⟨h1, h2, rfl⟩
  | cons e es ih =>
    intro s h h1 h2
    have h' := Bool.or_eq_false_iff.mp
      (show (isResolve e || hasResolve es) = false from h)
    have hne : ∀ r, e ≠ Event.resolve r := by
      intro r hr
      subst hr
      have h3 := h'.1
      simp [isResolve] at h3
    have hi := step_inst_of_not_resolve s e hne
    have hcch := step_cached_of_not_resolve s e hne
    have hct := callTotal_step_of_none s e h1 h2 hne
    rw [run_cons]
    have res := ih (step s e) h'.2 (hi.trans h1) (hcch.trans h2)
    exact ⟨res.1, res.2.1, res.2.2.trans hct⟩

/-- The core single-instance invariant: with at most one resolution in the
trace, every call forwarded so far went to the current (unique) instance;
moreover, the `shareReplay(1)` buffer always agrees with `_instance`, and
without any resolution there is no instance. -/
theorem run_singleInst (es : List Event) :
    (resolveCount es = 0 → (run initState es).inst = none) ∧
    (run initState es).cached = (run initState es).inst ∧
    (resolveCount es ≤ 1 → ∀ c x, Effect.call c x ∈ (run initState es).log →
      (run initState es).inst = some x) := by
  induction es using List.reverseRecOn with
  | nil =>
    refine ⟨fun _ => rfl, rfl, fun _ c x hx => absurd hx ?_⟩
    simp [run, initState]
  | append_singleton es e ih =>
    obtain ⟨ih1, ih2, ih3⟩ := ih
    rw [run_concat]
    have hrc : resolveCount (es ++ [e]) = resolveCount es + resolveCount [e] := by
      simp [resolveCount, List.countP_append]
    refine ⟨?_, step_cached_eq_inst _ _ ih2, ?_⟩
    · intro h0
      rw [hrc] at h0
      have h1 : resolveCount es = 0 := by omega
      have h2 : resolveCount [e] = 0 := by omega
      have hne : ∀ r, e ≠ .resolve r := by
        intro r hr
        subst hr
        simp [resolveCount, isResolve, List.countP_cons] at h2
      rw [step_inst_of_not_resolve _ _ hne]
      exact ih1 h1
    · intro hle
      rw [hrc] at hle
      by_cases hr : ∃ r, e = .resolve r
      · obtain ⟨r, rfl⟩ := hr
        have h2 : resolveCount [Event.resolve r] = 1 := by
          simp [resolveCount, isResolve, List.countP_cons]
        rw [h2] at hle
        have h1 : resolveCount es = 0 := by omega
        exact calls_step _ _ ih2 (ih3 (by omega)) (fun r2 _ => ih1 h1)
      · push_neg at hr
        have h2 : resolveCount [e] = 0 := by
          cases e <;> simp [resolveCount, isResolve, List.countP_cons]
          exact absurd rfl (hr _)
        rw [h2] at hle
        exact calls_step _ _ ih2 (ih3 (by omega)) (fun r2 hr2 => absurd hr2 (hr r2))

/-! ## Claim theorems -/

/-- Claim C1: for every controller instance, `elements.create` is invoked
at most once no matter which operations the trace contains; the widget is
mounted at most once per pipeline resolution (the cached result is
replayed, never re-executed); and on any trace with at most one
resolution, every forwarded operation observes the same single cached
instance. -/
theorem C1_create_once_single_instance (es : List Event) :
    createCount (run initState es).log ≤ 1 ∧
    mountCount (run initState es).log ≤ resolveCount es ∧
    (resolveCount es ≤ 1 → ∀ c1 x1 c2 x2,
      Effect.call c1 x1 ∈ (run initState es).log →
      Effect.call c2 x2 ∈ (run initState es).log → x1 = x2) := by
  refine ⟨?_, ?_, ?_⟩
  · rw [createCount_eq_length, run_createsOf es initState rfl]
    cases hf : firstInit es <;> simp [initState, createsOf]
  · have h := run_mountCount_le es initState
    simpa [initState, mountCount] using h
  · intro hle c1 x1 c2 x2 h1 h2
    have hs := (run_singleInst es).2.2 hle
    have e1 := hs c1 x1 h1
    have e2 := hs c2 x2 h2
    rw [e1] at e2
    exact Option.some.inj e2

/-- Witness for C1 at a concrete trace: a `clear` queued before the single
resolution and a `focus` issued after it both went to the same instance. -/
theorem C1_witness :
    resolveCount [Event.init 0, Event.clear, Event.resolve 5, Event.focus] ≤ 1 ∧
    Effect.call ElmCall.clear 5
      ∈ (run initState [Event.init 0, Event.clear, Event.resolve 5, Event.focus]).log ∧
    Effect.call ElmCall.focus 5
      ∈ (run initState [Event.init 0, Event.clear, Event.resolve 5, Event.focus]).log ∧
    (5 : Elm) = 5 := by
  refine ⟨by decide, by decide, by decide, ?_⟩
  exact (C1_create_once_single_instance
      [Event.init 0, Event.clear, Event.resolve 5, Event.focus]).2.2 (by decide)
    ElmCall.clear 5 ElmCall.focus 5 (by decide) (by decide)

/-- Claim C2: only the first options value supplied to the `init$` channel
determines what gets created — the recorded `elements.create` calls are
exactly the first `init` options of the trace — and once `take(1)` has
fired, a later `init` leaves the state entirely unchanged (accepted
without error, no observable effect). -/
theorem C2_first_init_wins :
    (∀ es, createsOf (run initState es).log
      = (firstInit es).elim [] (fun o => [o])) ∧
    (∀ (s : DirectiveState) (o : Opts), s.initDone = true → step s (.init o) = s) := by
  constructor
  · intro es
    rw [run_createsOf es initState rfl]
    simp [initState, createsOf]
  · intro s o h
    simp [step, h]

/-- Witness for C2: `init 3` then `init 4` creates with options `3`, and a
late `init` on an already-initialized state is a no-op. -/
theorem C2_witness :
    createsOf (run initState [Event.init 3, Event.init 4, Event.resolve 7]).log = [3] ∧
    step { initState with initDone := true } (Event.init 4)
      = { initState with initDone := true } := by
  constructor
  · exact C2_first_init_wins.1 [Event.init 3, Event.init 4, Event.resolve 7]
  · exact C2_first_init_wins.2 _ 4 rfl

/-- Claim C3: `focus()`, `blur()` and `clear()` are forwarded synchronously
to the instance when it exists; before resolution they are queued (no call
forwarded yet); and in the scenario `init`, `clear`, resolution, exactly
one `clear` is forwarded, after the mount, and the queued subscription is
discarded (the queue is empty afterwards). -/
theorem C3_forwarding :
    (∀ (s : DirectiveState) (e : Elm), s.inst = some e →
      step s .focus = { s with log := s.log ++ [.call .focus e] } ∧
      step s .blur = { s with log := s.log ++ [.call .blur e] } ∧
      step s .clear = { s with log := s.log ++ [.call .clear e] }) ∧
    (∀ s : DirectiveState, s.inst = none → s.cached = none →
      step s .focus = { s with queuedForwards := s.queuedForwards ++ [.focus] } ∧
      step s .blur = { s with queuedForwards := s.queuedForwards ++ [.blur] } ∧
      step s .clear = { s with queuedForwards := s.queuedForwards ++ [.clear] }) ∧
    (∀ (o : Opts) (e : Elm),
      run initState [.init o, .clear, .resolve e]
        = { initState with
            initDone := true
            pendingCreate := some o
            inst := some e
            cached := some e
            log := [.create o, .mount e, .call .clear e] }) := by
  refine ⟨?_, ?_, ?_⟩
  · intro s e h
    refine ⟨?_, ?_, ?_⟩ <;> simp [step, fwd, h]
  · intro s h1 h2
    refine ⟨?_, ?_, ?_⟩ <;> simp [step, fwd, h1, h2]
  · intro o e
    rfl

/-- Witness for C3: synchronous forwarding after resolution, queueing from
the fresh state. -/
theorem C3_witness :
    (run initState [Event.init 0, Event.resolve 7]).inst = some 7 ∧
    step (run initState [Event.init 0, Event.resolve 7]) Event.clear
      = { run initState [Event.init 0, Event.resolve 7] with
          log := (run initState [Event.init 0, Event.resolve 7]).log
            ++ [Effect.call ElmCall.clear 7] } ∧
    step initState Event.clear
      = { initState with
          queuedForwards := initState.queuedForwards ++ [ElmCall.clear] } := by
  refine ⟨by decide, ?_, ?_⟩
  · exact (C3_forwarding.1 _ 7 (by decide)).2.2
  · exact (C3_forwarding.2.1 initState rfl rfl).2.2

/-- Claim C4: disposal before resolution completes without fault (total
step), cancels the keep-alive subscription exactly once, and the deferred
destroy runs exactly once when the pipeline later resolves (after the
mount); if the pipeline never resolves, no call — in particular no
destroy — is ever forwarded. -/
theorem C4_destroy_before_resolution :
    (∀ s : DirectiveState, (step s .ngOnDestroy).subAlive = false ∧
      unsubCount (step s .ngOnDestroy).log = unsubCount s.log + 1) ∧
    (∀ es : List Event, unsubCount (run initState es).log = ngCount es) ∧
    (∀ (o : Opts) (e : Elm),
      run initState [.init o, .ngOnDestroy, .resolve e]
        = { initState with
            initDone := true
            pendingCreate := some o
            subAlive := false
            inst := some e
            cached := some e
            log := [.create o, .unsub, .mount e, .call .destroy e] }) ∧
    (∀ es : List Event, hasResolve es = false →
      callTotal (run initState es).log = 0) := by
  refine ⟨?_, ?_, ?_, ?_⟩
  · intro s
    refine ⟨rfl, ?_⟩
    have h := unsubCount_step s .ngOnDestroy
    simpa [ngCount] using h
  · intro es
    have h := run_unsubCount es initState
    simpa [initState, unsubCount] using h
  · intro o e
    rfl
  · intro es h
    exact (run_no_resolve es initState h rfl rfl).2.2

/-- Witness for C4 at concrete inputs. -/
theorem C4_witness :
    ((step initState Event.ngOnDestroy).subAlive = false ∧
      unsubCount (step initState Event.ngOnDestroy).log
        = unsubCount initState.log + 1) ∧
    unsubCount
      (run initState [Event.init 0, Event.ngOnDestroy, Event.resolve 7]).log = 1 ∧
    hasResolve [Event.init 0, Event.ngOnDestroy] = false ∧
    callTotal (run initState [Event.init 0, Event.ngOnDestroy]).log = 0 := by
  refine ⟨C4_destroy_before_resolution.1 initState, ?_, by decide, ?_⟩
  · exact C4_destroy_before_resolution.2.1
      [Event.init 0, Event.ngOnDestroy, Event.resolve 7]
  · exact C4_destroy_before_resolution.2.2.2 _ (by decide)

/-- Counterexample to claim C5: one disposal after resolution forwards one
destroy, but a second disposal forwards destroy a second time — the code
never clears `_instance`, so `forward` happily re-runs `destroy()` on the
same handle. -/
theorem C5_counterexample :
    callCount ElmCall.destroy
      (run initState
        [Event.init 0, Event.resolve 7, Event.ngOnDestroy]).log = 1 ∧
    callCount ElmCall.destroy
      (run initState
        [Event.init 0, Event.resolve 7, Event.ngOnDestroy, Event.ngOnDestroy]).log
      = 2 :=
  ⟨by decide, by decide⟩

/-- Claim C5 as amended: disposal after resolution forwards exactly one
destroy per disposal call, synchronously; since the handle reference is
never cleared, a second disposal forwards destroy to the same handle a
second time. A single disposal after resolution destroys the current
handle exactly once. -/
theorem C5_amended_destroy_per_disposal :
    (∀ (s : DirectiveState) (e : Elm), s.inst = some e →
      step s .ngOnDestroy
        = { s with
            subAlive := false
            log := s.log ++ [.call .destroy e, .unsub] }) ∧
    (∀ (o : Opts) (e : Elm),
      callCount ElmCall.destroy
        (run initState [.init o, .resolve e, .ngOnDestroy]).log = 1) := by
  constructor
  · intro s e h
    simp [step, fwd, h, List.append_assoc]
  · intro o e
    rfl

/-- Witness for the amended C5. -/
theorem C5_amended_witness :
    (run initState [Event.init 0, Event.resolve 7]).inst = some 7 ∧
    step (run initState [Event.init 0, Event.resolve 7]) Event.ngOnDestroy
      = { run initState [Event.init 0, Event.resolve 7] with
          subAlive := false
          log := (run initState [Event.init 0, Event.resolve 7]).log
            ++ [Effect.call ElmCall.destroy 7, Effect.unsub] } := by
  exact ⟨by decide, C5_amended_destroy_per_disposal.1 _ 7 (by decide)⟩

/-- Claim C6: constructing without the container collaborator fails
immediately with the usage error (no state is produced, so no creation can
ever be attempted), while construction with the collaborator succeeds with
an effect-free initial state. -/
theorem C6_container_required :
    construct none = Except.error containerErrMsg ∧
    construct (some ()) = Except.ok initState ∧
    createCount initState.log = 0 :=
  ⟨rfl, rfl, rfl⟩

/-- Claim C7: `empty`, `complete` and `error` are pure projections of the
stored ChangeEvent (they depend on nothing but `_value`); `empty` is true
iff there is no stored value or its `empty` field is true; `complete` is
true iff a stored value exists with `complete` true; `error` is the stored
error object when present and null otherwise; and before any change
notification `empty = true`, `complete = false`, `error = null`. -/
theorem C7_value_projections :
    (∀ s t : DirectiveState, s.value = t.value →
      emptyGet s = emptyGet t ∧ completeGet s = completeGet t ∧
      errorGet s = errorGet t) ∧
    (∀ s : DirectiveState, emptyGet s = true ↔
      (s.value = none ∨ ∃ v, s.value = some v ∧ v.empty = true)) ∧
    (∀ s : DirectiveState, completeGet s = true ↔
      ∃ v, s.value = some v ∧ v.complete = true) ∧
    (∀ (s : DirectiveState) (err : StripeError), errorGet s = some err ↔
      ∃ v, s.value = some v ∧ v.error = some err) ∧
    (∀ es, hasChange es = false →
      emptyGet (run initState es) = true ∧
      completeGet (run initState es) = false ∧
      errorGet (run initState es) = none) ∧
    (∀ (s : DirectiveState) (ev : ChangeEvent), s.inst.isSome = true →
      (step s (.changeEvt ev)).value = some ev) := by
  refine ⟨?_, ?_, ?_, ?_, ?_, ?_⟩
  · intro s t h
    exact ⟨by simp [emptyGet, h], by simp [completeGet, h], by simp [errorGet, h]⟩
  · intro s
    cases hv : s.value <;> simp [emptyGet, hv]
  · intro s
    cases hv : s.value <;> simp [completeGet, hv]
  · intro s err
    cases hv : s.value <;> simp [errorGet, hv]
  · intro es h
    have hval : (run initState es).value = none := run_value_of_no_change es initState h
    exact ⟨by simp [emptyGet, hval], by simp [completeGet, hval],
      by simp [errorGet, hval]⟩
  · intro s ev h
    simp [step, h]

/-- Witness for C7 at concrete inputs. -/
theorem C7_witness :
    (emptyGet initState = true ↔
      (initState.value = none ∨ ∃ v, initState.value = some v ∧ v.empty = true)) ∧
    (emptyGet (run initState [Event.init 0]) = true ∧
      completeGet (run initState [Event.init 0]) = false ∧
      errorGet (run initState [Event.init 0]) = none) ∧
    (step (run initState [Event.init 0, Event.resolve 7])
        (Event.changeEvt ⟨false, true, none⟩)).value = some ⟨false, true, none⟩ := by
  refine ⟨C7_value_projections.2.1 initState, ?_, ?_⟩
  · exact C7_value_projections.2.2.2.2.1 [Event.init 0] (by decide)
  · exact C7_value_projections.2.2.2.2.2 _ ⟨false, true, none⟩ (by decide)

/-- Claim C8: the ready flag starts false, is monotone (no step ever
resets it), can only be raised by the widget ready event, and is raised by
that event whenever the instance exists. -/
theorem C8_ready_monotone :
    initState.ready = false ∧
    (∀ (s : DirectiveState) (e : Event), s.ready = true → (step s e).ready = true) ∧
    (∀ (s : DirectiveState) (e : Event),
      (step s e).ready = true → s.ready = true ∨ e = .readyEvt) ∧
    (∀ s : DirectiveState, s.inst.isSome = true →
      (step s .readyEvt).ready = true) := by
  refine ⟨rfl, ready_step_of_ready, ?_, ?_⟩
  · intro s e h
    by_cases he : e = .readyEvt
    · exact Or.inr he
    · refine Or.inl ?_
      rw [← ready_step_ne s e he]
      exact h
  · intro s h
    simp [step, h]

/-- Witness for C8 at concrete inputs. -/
theorem C8_witness :
    initState.ready = false ∧
    (step (run initState [Event.init 0, Event.resolve 7, Event.readyEvt])
      Event.blur).ready = true ∧
    (step (run initState [Event.init 0, Event.resolve 7]) Event.readyEvt).ready
      = true := by
  refine ⟨C8_ready_monotone.1, ?_, ?_⟩
  · exact C8_ready_monotone.2.1 _ Event.blur (by decide)
  · exact C8_ready_monotone.2.2.2 _ (by decide)

/-- Claim C9: once an instance exists, the focused getter equals the value
of the most recent focus/blur widget notification in the trace (true after
focus, false after blur), keeps its old value when no notification
occurred, and the sequence focus, blur, focus leaves it true. -/
theorem C9_focused_last_notification :
    (∀ (s : DirectiveState) (es : List Event) (b : Bool), s.inst.isSome = true →
      lastNotif es = some b → (run s es).focused = b) ∧
    (∀ (s : DirectiveState) (es : List Event), s.inst.isSome = true →
      lastNotif es = none → (run s es).focused = s.focused) ∧
    (∀ s : DirectiveState, s.inst.isSome = true →
      (run s [.focusEvt, .blurEvt, .focusEvt]).focused = true) := by
  have key : ∀ (s : DirectiveState) (es : List Event), s.inst.isSome = true →
      (run s es).focused = (lastNotif es).getD s.focused := by
    intro s es h
    rw [run_focused es s h]
    have h2 := foldl_fbUpd es none s.focused
    simpa [lastNotif] using h2
  refine ⟨?_, ?_, ?_⟩
  · intro s es b h hl
    rw [key s es h, hl]
    rfl
  · intro s es h hl
    rw [key s es h, hl]
    rfl
  · intro s h
    rw [key s _ h]
    rfl

/-- Witness for C9: after creation, focus then blur then focus leaves the
directive focused. -/
theorem C9_witness :
    (run initState [Event.init 0, Event.resolve 7]).inst.isSome = true ∧
    lastNotif [Event.focusEvt, Event.blurEvt, Event.focusEvt] = some true ∧
    (run (run initState [Event.init 0, Event.resolve 7])
      [Event.focusEvt, Event.blurEvt, Event.focusEvt]).focused = true := by
  refine ⟨by decide, by decide, ?_⟩
  exact C9_focused_last_notification.2.2 _ (by decide)

/-- Claim C10: the base-class disabled getter returns false for every
state, and the base `disable(flag)` is a no-op on the state, whatever the
flag. -/
theorem C10_disabled_always_false :
    (∀ s : DirectiveState, disabledGet s = false) ∧
    (∀ (s : DirectiveState) (b : Bool), step s (.disable b) = s) :=
  ⟨fun _ => rfl, fun _ _ => rfl⟩

end StripeDirective